import Mathlib

/-!
Verification of the Windows run loop in xi-win-shell (src/win_main.rs).

The embedding translates the source directly:

* `RunLoopState` mirrors the Rust struct of the same name: a listener list
  and an idle-callback queue, both `Vec`s that are only pushed at the end.
* Callbacks are modelled by identifiers; an environment `Env` maps each
  identifier to the sequence of registration operations (`RegOp`) the
  callback performs against the shared state when invoked.  This captures
  exactly the reentrant-mutation behaviour the claims are about.
* The `RefCell` discipline is modelled by a borrow flag threaded through
  `execOp` / `execOps`: an operation attempted while the loop holds the
  exclusive borrow fails, which models the `BorrowMutError` panic.
  In the source, the listener dispatch at line 103 keeps the `RefMut`
  temporary alive across the callback call (it is dropped at the end of the
  statement), so callbacks invoked there run with the borrow held; the idle
  drain at lines 105-108 releases the borrow when the `let idles = ...`
  statement ends, so idle callbacks run with the borrow free.
* The operating system is an oracle: each loop iteration is scripted by an
  `IterScript` giving the raw result of `MsgWaitForMultipleObjectsEx` and
  the list of messages the drain loop will see (`PeekMessageW` succeeds
  while the list is nonempty; each message carries the `GetMessageW` return
  value and the registrations its window procedure performs when
  dispatched).
* `runIter` is one body of the outer `loop` in `RunLoop::run`; `run` folds
  it over a finite script.  Each iteration records observable events
  (the wait call with its arguments, message dispatches, listener and idle
  invocations) so that the temporal claims can be stated over traces.
-/

namespace XiWin

/-- winapi constant: first index of a signaled handle. -/
def WAIT_OBJECT_0 : Nat := 0

/-- winapi constant: the wait timed out. -/
def WAIT_TIMEOUT : Nat := 258

/-- winapi constant: infinite timeout. -/
def INFINITE : Nat := 4294967295

/-- winapi constant: the wait failed (same bit pattern as INFINITE). -/
def WAIT_FAILED : Nat := 4294967295

/-- A registration operation that user code can perform through a
`RunLoopHandle` clone: `add_handler` pushes a listener, `add_idle` pushes
an idle callback.  Handles and callbacks are identifiers. -/
inductive RegOp where
  | addHandler (h : Nat) (cb : Nat)
  | addIdle (cb : Nat)
deriving DecidableEq, Repr

/-- Mirrors `struct Listener { h: HANDLE, callback: Box<FnMut()> }`. -/
structure Listener where
  h : Nat
  callback : Nat
deriving DecidableEq, Repr

/-- Mirrors `struct RunLoopState { listeners: Vec<Listener>, idle: Vec<Box<IdleCallback>> }`. -/
structure RunLoopState where
  listeners : List Listener
  idle : List Nat
deriving DecidableEq, Repr

instance : Inhabited RunLoopState := ⟨⟨[], []⟩⟩

/-- A callback environment: what registration operations each callback
identifier performs when its code runs. -/
abbrev Env := Nat → List RegOp

/-- `RunLoopHandle::add_handler`: pushes a new listener at the end of the
listener list (`self.0.borrow_mut().listeners.push(listener)`). -/
def RunLoopHandle.add_handler (s : RunLoopState) (h cb : Nat) : RunLoopState :=
  { s with listeners := s.listeners ++ [⟨h, cb⟩] }

/-- `RunLoopHandle::add_idle`: pushes a new idle callback at the end of the
idle queue (`self.0.borrow_mut().idle.push(Box::new(callback))`). -/
def RunLoopHandle.add_idle (s : RunLoopState) (cb : Nat) : RunLoopState :=
  { s with idle := s.idle ++ [cb] }

/-- Effect of one registration operation on the shared state, ignoring the
borrow discipline. -/
def applyOp (s : RunLoopState) : RegOp → RunLoopState
  | .addHandler h cb => RunLoopHandle.add_handler s h cb
  | .addIdle cb => RunLoopHandle.add_idle s cb

/-- Effect of a sequence of registration operations, ignoring the borrow
discipline. -/
def applyOps (s : RunLoopState) (ops : List RegOp) : RunLoopState :=
  ops.foldl applyOp s

/-- The panic raised by `RefCell::borrow_mut` when the exclusive borrow is
already held. -/
inductive BorrowError where
  | borrowMut
deriving DecidableEq, Repr

/-- One registration operation under the `RefCell` discipline: both
`add_handler` and `add_idle` begin with `self.0.borrow_mut()`, which
panics when the loop currently holds the exclusive borrow. -/
def execOp (borrowHeld : Bool) (s : RunLoopState) (op : RegOp) :
    Except BorrowError RunLoopState :=
  if borrowHeld then .error .borrowMut else .ok (applyOp s op)

/-- A callback body under the `RefCell` discipline: operations run in
order; the first panic aborts the rest. -/
def execOps (borrowHeld : Bool) (s : RunLoopState) :
    List RegOp → Except BorrowError RunLoopState
  | [] => .ok s
  | op :: ops =>
    match execOp borrowHeld s op with
    | .ok s1 => execOps borrowHeld s1 ops
    | .error e => .error e

/-- One queued UI message, as the drain loop observes it: the value
`GetMessageW` returns for it, and the registrations its window procedure
performs when `DispatchMessageW` delivers it. -/
structure Msg where
  getRes : Int
  actions : List RegOp
deriving DecidableEq, Repr

/-- The OS oracle for one iteration of the outer loop: the raw result of
`MsgWaitForMultipleObjectsEx` and the messages the drain loop will see. -/
structure IterScript where
  waitRes : Nat
  msgs : List Msg
deriving DecidableEq, Repr

/-- Observable events of a run, in program order. -/
inductive Event where
  | waitCall (len : Nat) (handles : List Nat) (timeout : Nat)
  | msgDispatched (actions : List RegOp)
  | listenerInvoked (ix : Nat) (cb : Nat)
  | idleInvoked (cb : Nat)
deriving DecidableEq, Repr

/-- How one iteration of the outer loop ends. -/
inductive IterResult where
  | next
  | returned
  | borrowPanic
  | indexPanic
deriving DecidableEq, Repr

/-- Result of the message-drain inner loop (lines 86-99): the state after
all dispatches, the dispatch events, and whether `GetMessageW` returned a
value `<= 0` (in which case `run` returns). -/
structure DrainOut where
  st : RunLoopState
  evs : List Event
  quit : Bool
deriving DecidableEq, Repr

/-- The inner message loop: `PeekMessageW` succeeds while messages remain;
`GetMessageW <= 0` makes `run` return; otherwise the message is translated
and dispatched (its window procedure may register listeners or idle
callbacks; no borrow of the shared state is held here). -/
def drainMsgs (s : RunLoopState) : List Msg → DrainOut
  | [] => ⟨s, [], false⟩
  | m :: ms =>
    if m.getRes ≤ 0 then ⟨s, [], true⟩
    else
      let d := drainMsgs (applyOps s m.actions) ms
      ⟨d.st, .msgDispatched m.actions :: d.evs, d.quit⟩

/-- The idle-drain loop body (lines 106-108): each callback of the batch is
invoked once, in order; the borrow is free, so its registrations apply. -/
def drainIdle (env : Env) (s : RunLoopState) : List Nat → RunLoopState
  | [] => s
  | cb :: cbs => drainIdle env (applyOps s (env cb)) cbs

/-- Result of one iteration: final state, events, and how it ended. -/
structure IterOut where
  st : RunLoopState
  evs : List Event
  res : IterResult
deriving DecidableEq, Repr

/-- One body of the outer `loop` in `RunLoop::run` (lines 70-110):
snapshot the handles, compute the timeout from the idle queue, issue the
composite wait, drain the message queue, then either invoke the signaled
listener (with the exclusive borrow held across the call, as the `RefMut`
temporary of line 103 lives to the end of that statement), or on
`WAIT_TIMEOUT` swap the idle queue for an empty one and invoke the taken
batch in order (borrow free), or, for any other wait result, do nothing. -/
def runIter (env : Env) (s : RunLoopState) (it : IterScript) : IterOut :=
  let handles := s.listeners.map Listener.h
  let len := handles.length
  let timeout := if s.idle.isEmpty then INFINITE else 0
  let ev0 := Event.waitCall len handles timeout
  let res := it.waitRes
  let d := drainMsgs s it.msgs
  if d.quit then ⟨d.st, ev0 :: d.evs, .returned⟩
  else if WAIT_OBJECT_0 ≤ res ∧ res < WAIT_OBJECT_0 + len then
    let ix := res - WAIT_OBJECT_0
    match d.st.listeners[ix]? with
    | some l =>
      match execOps true d.st (env l.callback) with
      | .ok s2 => ⟨s2, ev0 :: d.evs ++ [.listenerInvoked ix l.callback], .next⟩
      | .error _ => ⟨d.st, ev0 :: d.evs ++ [.listenerInvoked ix l.callback], .borrowPanic⟩
    | none => ⟨d.st, ev0 :: d.evs, .indexPanic⟩
  else if res = WAIT_TIMEOUT then
    let batch := d.st.idle
    ⟨drainIdle env { d.st with idle := [] } batch,
      ev0 :: d.evs ++ batch.map Event.idleInvoked, .next⟩
  else ⟨d.st, ev0 :: d.evs, .next⟩

/-- How a whole scripted run ends. -/
inductive Outcome where
  | returned
  | borrowPanic
  | indexPanic
  | scriptEnd
deriving DecidableEq, Repr

/-- Result of a scripted run: final state, full trace, outcome. -/
structure LoopOut where
  st : RunLoopState
  evs : List Event
  out : Outcome
deriving DecidableEq, Repr

/-- `RunLoop::run`, folded over a finite OS script: iterate until the
script ends, the drain observes `GetMessageW <= 0`, or a panic. -/
def run (env : Env) (s : RunLoopState) : List IterScript → LoopOut
  | [] => ⟨s, [], .scriptEnd⟩
  | it :: its =>
    let i := runIter env s it
    match i.res with
    | .next =>
      let l := run env i.st its
      ⟨l.st, i.evs ++ l.evs, l.out⟩
    | .returned => ⟨i.st, i.evs, .returned⟩
    | .borrowPanic => ⟨i.st, i.evs, .borrowPanic⟩
    | .indexPanic => ⟨i.st, i.evs, .indexPanic⟩

/-!
The `Rc<RefCell<RunLoopState>>` sharing structure, for the claims about
`RunLoop::new` and `RunLoop::get_handle`.  A `RunLoopHandle` is the address
of a shared state cell in a heap; cloning the handle copies the address.
-/

/-- A heap of shared `RunLoopState` cells: `Rc` allocation modelled by a
fresh-address counter. -/
structure Heap where
  next : Nat
  mem : Nat → Option RunLoopState

/-- Write one cell of the heap. -/
def Heap.write (hp : Heap) (a : Nat) (st : RunLoopState) : Heap :=
  ⟨hp.next, fun x => if x = a then some st else hp.mem x⟩

/-- `pub struct RunLoop { handle: RunLoopHandle }`: the loop owns one
handle, i.e. one address of the shared cell. -/
structure RunLoop where
  handle : Nat

/-- `RunLoop::new`: allocates a fresh shared state with
`Default::default()`, i.e. empty listener list and empty idle queue. -/
def RunLoop.new (hp : Heap) : RunLoop × Heap :=
  (⟨hp.next⟩, ⟨hp.next + 1, fun a => if a = hp.next then some ⟨[], []⟩ else hp.mem a⟩)

/-- `RunLoop::get_handle`: `self.handle.clone()` — returns the same
address; the heap is untouched. -/
def RunLoop.get_handle (rl : RunLoop) (hp : Heap) : Nat × Heap :=
  (rl.handle, hp)

/-- `RunLoopHandle::add_handler` acting through a handle (an address): the
cell it names is updated in place. -/
def add_handler_at (hp : Heap) (a : Nat) (h cb : Nat) : Heap :=
  match hp.mem a with
  | some st => hp.write a (RunLoopHandle.add_handler st h cb)
  | none => hp

/-!  Abbreviations used to state the lemmas.  -/

/-- State after dispatching a list of messages (pure effect of the drain). -/
def dState (s : RunLoopState) (ms : List Msg) : RunLoopState :=
  ms.foldl (fun t m => applyOps t m.actions) s

/-- The event recorded for one dispatched message. -/
def dispatchEv (m : Msg) : Event := .msgDispatched m.actions

/-- The wait-call event an iteration starting from state `s` records. -/
def waitEv (s : RunLoopState) : Event :=
  .waitCall s.listeners.length (s.listeners.map Listener.h)
    (if s.idle.isEmpty then INFINITE else 0)

/-- Whether an event is a listener-callback invocation. -/
def isListenerEv : Event → Bool
  | .listenerInvoked _ _ => true
  | _ => false

/-- Whether an event is an idle-callback invocation. -/
def isIdleEv : Event → Bool
  | .idleInvoked _ => true
  | _ => false

/-!  Helper lemmas.  -/

theorem applyOps_listeners_grow (ops : List RegOp) (s : RunLoopState) :
    ∃ t, (applyOps s ops).listeners = s.listeners ++ t := by
  induction ops generalizing s with
  | nil => exact ⟨[], by simp [applyOps]⟩
  | cons op ops ih =>
    obtain ⟨t, ht⟩ := ih (applyOp s op)
    cases op with
    | addHandler h cb =>
      exact ⟨⟨h, cb⟩ :: t, by
        simpa [applyOps, applyOp, RunLoopHandle.add_handler] using ht⟩
    | addIdle cb =>
      exact ⟨t, by simpa [applyOps, applyOp, RunLoopHandle.add_idle] using ht⟩

theorem dState_listeners_grow (ms : List Msg) (s : RunLoopState) :
    ∃ t, (dState s ms).listeners = s.listeners ++ t := by
  induction ms generalizing s with
  | nil => exact ⟨[], by simp [dState]⟩
  | cons m ms ih =>
    obtain ⟨t1, ht1⟩ := ih (applyOps s m.actions)
    obtain ⟨t0, ht0⟩ := applyOps_listeners_grow m.actions s
    refine ⟨t0 ++ t1, ?_⟩
    have : dState s (m :: ms) = dState (applyOps s m.actions) ms := rfl
    rw [this, ht1, ht0, List.append_assoc]

theorem drainMsgs_clean (ms : List Msg) (s : RunLoopState)
    (h : ∀ m ∈ ms, 0 < m.getRes) :
    drainMsgs s ms = ⟨dState s ms, ms.map dispatchEv, false⟩ := by
  induction ms generalizing s with
  | nil => simp [drainMsgs, dState]
  | cons m ms ih =>
    have hm : 0 < m.getRes := h m (by simp)
    have hms : ∀ m1 ∈ ms, 0 < m1.getRes := fun m1 hm1 => h m1 (by simp [hm1])
    simp only [drainMsgs, ih (applyOps s m.actions) hms]
    rw [if_neg (by omega)]
    simp [dState, dispatchEv]

theorem drainMsgs_stop (pre : List Msg) (m0 : Msg) (post : List Msg)
    (s : RunLoopState) (hpre : ∀ m ∈ pre, 0 < m.getRes) (hm : m0.getRes ≤ 0) :
    drainMsgs s (pre ++ m0 :: post) = ⟨dState s pre, pre.map dispatchEv, true⟩ := by
  induction pre generalizing s with
  | nil =>
    simp only [List.nil_append, drainMsgs]
    rw [if_pos hm]
    simp [dState]
  | cons m pre ih =>
    have hm1 : 0 < m.getRes := hpre m (by simp)
    have hpre1 : ∀ m1 ∈ pre, 0 < m1.getRes := fun m1 h1 => hpre m1 (by simp [h1])
    simp only [List.cons_append, drainMsgs, List.append_eq]
    rw [if_neg (by omega), ih (applyOps s m.actions) hpre1]
    simp [dState, dispatchEv]

theorem drain_evs_dispatch (ms : List Msg) (s : RunLoopState) :
    ∀ e ∈ (drainMsgs s ms).evs, ∃ a, e = .msgDispatched a := by
  induction ms generalizing s with
  | nil => simp [drainMsgs]
  | cons m ms ih =>
    by_cases hm : m.getRes ≤ 0
    · simp [drainMsgs, hm]
    · simp only [drainMsgs, if_neg hm]
      intro e he
      rcases List.mem_cons.mp he with h | h
      · exact ⟨m.actions, h⟩
      · exact ih (applyOps s m.actions) e h

@[simp] theorem execOps_true_nil (s : RunLoopState) :
    execOps true s [] = .ok s := rfl

@[simp] theorem execOps_true_cons (s : RunLoopState) (op : RegOp) (ops : List RegOp) :
    execOps true s (op :: ops) = .error .borrowMut := rfl

theorem drain_st_listeners_grow (ms : List Msg) (s : RunLoopState) :
    ∃ t, (drainMsgs s ms).st.listeners = s.listeners ++ t := by
  induction ms generalizing s with
  | nil => exact ⟨[], by simp [drainMsgs]⟩
  | cons m ms ih =>
    by_cases hm : m.getRes ≤ 0
    · exact ⟨[], by simp [drainMsgs, hm]⟩
    · obtain ⟨t1, ht1⟩ := ih (applyOps s m.actions)
      obtain ⟨t0, ht0⟩ := applyOps_listeners_grow m.actions s
      refine ⟨t0 ++ t1, ?_⟩
      simp only [drainMsgs, if_neg hm]
      rw [ht1, ht0, List.append_assoc]

@[simp] theorem isListenerEv_waitCall (a : Nat) (b : List Nat) (c : Nat) :
    isListenerEv (.waitCall a b c) = false := rfl

@[simp] theorem isListenerEv_msgDispatched (a : List RegOp) :
    isListenerEv (.msgDispatched a) = false := rfl

@[simp] theorem isListenerEv_listenerInvoked (i c : Nat) :
    isListenerEv (.listenerInvoked i c) = true := rfl

@[simp] theorem isListenerEv_idleInvoked (c : Nat) :
    isListenerEv (.idleInvoked c) = false := rfl

@[simp] theorem isIdleEv_waitCall (a : Nat) (b : List Nat) (c : Nat) :
    isIdleEv (.waitCall a b c) = false := rfl

@[simp] theorem isIdleEv_msgDispatched (a : List RegOp) :
    isIdleEv (.msgDispatched a) = false := rfl

@[simp] theorem isIdleEv_listenerInvoked (i c : Nat) :
    isIdleEv (.listenerInvoked i c) = false := rfl

@[simp] theorem isIdleEv_idleInvoked (c : Nat) :
    isIdleEv (.idleInvoked c) = true := rfl

@[simp] theorem countP_listenerEv_idle_map (l : List Nat) :
    (l.map Event.idleInvoked).countP isListenerEv = 0 := by
  induction l with
  | nil => rfl
  | cons c l ih => simp [List.countP_cons, ih]

@[simp] theorem any_listenerEv_idle_map (l : List Nat) :
    (l.map Event.idleInvoked).any isListenerEv = false := by
  induction l with
  | nil => rfl
  | cons c l ih => simp [ih]

@[simp] theorem countP_comp_listenerEv_idle (l : List Nat) :
    l.countP (isListenerEv ∘ Event.idleInvoked) = 0 := by
  induction l with
  | nil => rfl
  | cons c l ih => simp [List.countP_cons, ih, Function.comp]

@[simp] theorem any_comp_listenerEv_idle (l : List Nat) :
    l.any (isListenerEv ∘ Event.idleInvoked) = false := by
  induction l with
  | nil => rfl
  | cons c l ih => simp [ih, Function.comp]

theorem drain_evs_no_invoke (ms : List Msg) (s : RunLoopState) :
    (drainMsgs s ms).evs.countP isListenerEv = 0
    ∧ (drainMsgs s ms).evs.any isListenerEv = false
    ∧ (drainMsgs s ms).evs.any isIdleEv = false := by
  refine ⟨List.countP_eq_zero.mpr ?_, List.any_eq_false.mpr ?_, List.any_eq_false.mpr ?_⟩ <;>
  · intro e he
    obtain ⟨a, ha⟩ := drain_evs_dispatch ms s e he
    subst ha
    simp [isListenerEv, isIdleEv]

theorem runIter_quit (env : Env) (s : RunLoopState) (it : IterScript)
    (pre : List Msg) (m0 : Msg) (post : List Msg)
    (hsplit : it.msgs = pre ++ m0 :: post)
    (hpre : ∀ m ∈ pre, 0 < m.getRes) (hm : m0.getRes ≤ 0) :
    runIter env s it = ⟨dState s pre, waitEv s :: pre.map dispatchEv, .returned⟩ := by
  simp only [runIter, hsplit, drainMsgs_stop pre m0 post s hpre hm]
  simp [waitEv]

theorem runIter_listener (env : Env) (s : RunLoopState) (it : IterScript)
    (hclean : ∀ m ∈ it.msgs, 0 < m.getRes)
    (hres : it.waitRes < s.listeners.length) :
    (runIter env s it).evs
      = waitEv s :: (it.msgs.map dispatchEv
          ++ [.listenerInvoked it.waitRes (s.listeners.get ⟨it.waitRes, hres⟩).callback])
    ∧ (runIter env s it).res ≠ .indexPanic := by
  obtain ⟨t, ht⟩ := dState_listeners_grow it.msgs s
  have hix : (dState s it.msgs).listeners[it.waitRes]?
      = some (s.listeners.get ⟨it.waitRes, hres⟩) := by
    rw [ht, List.getElem?_append, if_pos hres, List.getElem?_eq_getElem hres]
    simp
  simp only [runIter, drainMsgs_clean it.msgs s hclean]
  rw [if_neg (by simp)]
  rw [if_pos (by simp [WAIT_OBJECT_0]; omega)]
  simp only [WAIT_OBJECT_0, Nat.sub_zero, hix]
  cases hexec : execOps true (dState s it.msgs)
      (env (s.listeners.get ⟨it.waitRes, hres⟩).callback) with
  | ok s2 => simp [waitEv]
  | error e => simp [waitEv]

theorem runIter_timeout (env : Env) (s : RunLoopState) (it : IterScript)
    (hclean : ∀ m ∈ it.msgs, 0 < m.getRes)
    (hres : it.waitRes = WAIT_TIMEOUT)
    (hlen : s.listeners.length ≤ WAIT_TIMEOUT) :
    runIter env s it
      = ⟨drainIdle env { dState s it.msgs with idle := [] } (dState s it.msgs).idle,
          waitEv s :: (it.msgs.map dispatchEv
            ++ (dState s it.msgs).idle.map Event.idleInvoked), .next⟩ := by
  simp only [runIter, drainMsgs_clean it.msgs s hclean]
  rw [if_neg (by simp)]
  rw [if_neg (by
    simp only [WAIT_OBJECT_0, WAIT_TIMEOUT, List.length_map, hres] at hlen ⊢
    omega)]
  rw [if_pos hres]
  simp [waitEv]

theorem runIter_other (env : Env) (s : RunLoopState) (it : IterScript)
    (hclean : ∀ m ∈ it.msgs, 0 < m.getRes)
    (hres1 : ¬ it.waitRes < s.listeners.length)
    (hres2 : it.waitRes ≠ WAIT_TIMEOUT) :
    runIter env s it = ⟨dState s it.msgs, waitEv s :: it.msgs.map dispatchEv, .next⟩ := by
  simp only [runIter, drainMsgs_clean it.msgs s hclean]
  rw [if_neg (by simp)]
  rw [if_neg (by
    simp only [WAIT_OBJECT_0, List.length_map]
    omega)]
  rw [if_neg hres2]
  simp [waitEv]

/-!  The claims.  -/

/-- C1: the claim says reentrant `add_handler` / `add_idle` from any callback
dispatched by `run` succeeds because the exclusive borrow is never held
across a dispatch.  The code violates this for listener callbacks: the
`RefMut` temporary of line 103 lives until the end of the statement, so the
exclusive borrow IS held across the listener-callback call, and a reentrant
`add_idle` (or `add_handler`) inside such a callback panics with a
`BorrowMutError`.  Concretely: one listener on handle 5 whose callback
performs a single `add_idle`; the handle is signaled (wait result
`WAIT_OBJECT_0`); the run ends in a borrow panic instead of continuing. -/
theorem reentrant_add_during_listener_dispatch_panics :
    run (fun _ => [RegOp.addIdle 7]) ⟨[⟨5, 0⟩], []⟩ [⟨0, []⟩]
      = ⟨⟨[⟨5, 0⟩], []⟩,
          [.waitCall 1 [5] INFINITE, .listenerInvoked 0 0], .borrowPanic⟩ := by
  decide

/-- C2: if `GetMessageW` returns a value `<= 0` while the drain loop of an
iteration is running, `run` returns right there: the trace of the whole run
is the wait call plus the dispatches of the messages that preceded the
fatal read — no further message dispatch, no listener invocation, no idle
drain, and no later iteration. -/
theorem fatal_getmessage_returns_immediately (env : Env) (s : RunLoopState)
    (it : IterScript) (rest : List IterScript)
    (pre : List Msg) (m0 : Msg) (post : List Msg)
    (hsplit : it.msgs = pre ++ m0 :: post)
    (hpre : ∀ m ∈ pre, 0 < m.getRes) (hm : m0.getRes ≤ 0) :
    run env s (it :: rest)
      = ⟨dState s pre, waitEv s :: pre.map dispatchEv, .returned⟩ := by
  simp only [run, runIter_quit env s it pre m0 post hsplit hpre hm]

/-- Witness for C2 at a concrete input: one scripted iteration whose single
message reports `GetMessageW = 0`; the run returns with just the wait call
in its trace. -/
theorem fatal_getmessage_returns_immediately_witness :
    ((⟨0, []⟩ : Msg).getRes ≤ 0)
    ∧ run (fun _ => []) ⟨[], []⟩ [⟨258, [⟨0, []⟩]⟩]
        = ⟨⟨[], []⟩, [.waitCall 0 [] INFINITE], .returned⟩ :=
  ⟨by decide,
    (fatal_getmessage_returns_immediately (fun _ => []) ⟨[], []⟩ ⟨258, [⟨0, []⟩]⟩
      [] [] ⟨0, []⟩ [] rfl (by decide) (by decide)).trans (by decide)⟩

/-- C3: on a `WAIT_TIMEOUT` iteration (with the snapshot small enough that
the timeout value cannot be read as a handle index, as the platform
guarantees), the entire idle queue as it stands after the message drain is
swapped for the empty queue, and the trace records exactly one invocation
per queued callback, in queue (registration) order, after the drain; the
resulting state is the fold of the batch callbacks over the emptied
queue. -/
theorem timeout_drains_whole_idle_batch_fifo (env : Env) (s : RunLoopState)
    (it : IterScript)
    (hclean : ∀ m ∈ it.msgs, 0 < m.getRes)
    (hres : it.waitRes = WAIT_TIMEOUT)
    (hlen : s.listeners.length ≤ WAIT_TIMEOUT) :
    runIter env s it
      = ⟨drainIdle env { dState s it.msgs with idle := [] } (dState s it.msgs).idle,
          waitEv s :: (it.msgs.map dispatchEv
            ++ (dState s it.msgs).idle.map Event.idleInvoked), .next⟩ :=
  runIter_timeout env s it hclean hres hlen

/-- Witness for C3 at a concrete input: two queued idle callbacks, wait
times out, both are invoked once in FIFO order and the queue is left
empty. -/
theorem timeout_drains_whole_idle_batch_fifo_witness :
    ((258 : Nat) = WAIT_TIMEOUT)
    ∧ runIter (fun _ => []) ⟨[], [3, 4]⟩ ⟨258, []⟩
        = ⟨⟨[], []⟩, [.waitCall 0 [] 0, .idleInvoked 3, .idleInvoked 4], .next⟩ :=
  ⟨by decide,
    (timeout_drains_whole_idle_batch_fifo (fun _ => []) ⟨[], [3, 4]⟩ ⟨258, []⟩
      (by decide) (by decide) (by decide)).trans (by decide)⟩

/-- C5 counterexample: the claim says an error result from the composite
wait is not silently absorbed by another loop iteration.  The code has no
branch for it: with no listeners and `MsgWaitForMultipleObjectsEx`
returning `WAIT_FAILED` twice, the run performs a second wait call with
unchanged state — the error is retried and the loop continues as if
nothing happened. -/
theorem wait_error_retried_counterexample :
    run (fun _ => []) ⟨[], []⟩ [⟨4294967295, []⟩, ⟨4294967295, []⟩]
      = ⟨⟨[], []⟩,
          [.waitCall 0 [] INFINITE, .waitCall 0 [] INFINITE], .scriptEnd⟩ := by
  decide

/-- C5 amended: if the composite wait returns a result that is neither a
signaled-handle index nor `WAIT_TIMEOUT` (e.g. `WAIT_FAILED`), the
iteration dispatches no listener and no idle callback, leaves the state as
the message drain left it, and the loop proceeds to the next iteration,
reissuing the wait: the error is silently absorbed, not treated as
fatal. -/
theorem wait_error_silently_absorbed (env : Env) (s : RunLoopState)
    (it : IterScript)
    (hclean : ∀ m ∈ it.msgs, 0 < m.getRes)
    (hres1 : ¬ it.waitRes < s.listeners.length)
    (hres2 : it.waitRes ≠ WAIT_TIMEOUT) :
    runIter env s it = ⟨dState s it.msgs, waitEv s :: it.msgs.map dispatchEv, .next⟩ :=
  runIter_other env s it hclean hres1 hres2

/-- Witness for the amended C5 at a concrete input: `WAIT_FAILED` with no
messages; the iteration records only the wait call and continues. -/
theorem wait_error_silently_absorbed_witness :
    (¬ (4294967295 : Nat) < 0) ∧ ((4294967295 : Nat) ≠ WAIT_TIMEOUT)
    ∧ runIter (fun _ => []) ⟨[], []⟩ ⟨4294967295, []⟩
        = ⟨⟨[], []⟩, [.waitCall 0 [] INFINITE], .next⟩ :=
  ⟨by decide, by decide,
    (wait_error_silently_absorbed (fun _ => []) ⟨[], []⟩ ⟨4294967295, []⟩
      (by decide) (by decide) (by decide)).trans (by decide)⟩

/-- C4: any idle callback invoked during an iteration was already in the
idle queue at the moment the queue was swapped out (right after the
message drain).  Hence an idle callback registered from within a callback
the iteration dispatches — a listener callback or an idle callback of the
batch being drained — is never invoked in that same dispatch step or
batch: it sits in the fresh queue for a later timeout drain. -/
theorem idle_invoked_only_from_swapped_batch (env : Env) (s : RunLoopState)
    (it : IterScript) (c : Nat)
    (hmem : Event.idleInvoked c ∈ (runIter env s it).evs) :
    c ∈ (drainMsgs s it.msgs).st.idle := by
  have hdisp := drain_evs_dispatch it.msgs s
  simp only [runIter] at hmem
  split at hmem
  · rcases List.mem_cons.mp hmem with h | h
    · exact absurd h (by simp)
    · obtain ⟨a, ha⟩ := hdisp _ h
      exact Event.noConfusion ha
  · split at hmem
    · split at hmem
      · split at hmem <;>
        · rcases List.mem_cons.mp hmem with h | h
          · exact absurd h (by simp)
          · rcases List.mem_append.mp h with h1 | h1
            · obtain ⟨a, ha⟩ := hdisp _ h1
              exact Event.noConfusion ha
            · simp at h1
      · rcases List.mem_cons.mp hmem with h | h
        · exact absurd h (by simp)
        · obtain ⟨a, ha⟩ := hdisp _ h
          exact Event.noConfusion ha
    · split at hmem
      · rcases List.mem_cons.mp hmem with h | h
        · exact absurd h (by simp)
        · rcases List.mem_append.mp h with h1 | h1
          · obtain ⟨a, ha⟩ := hdisp _ h1
            exact Event.noConfusion ha
          · obtain ⟨b, hb, hbe⟩ := List.mem_map.mp h1
            cases hbe
            exact hb
      · rcases List.mem_cons.mp hmem with h | h
        · exact absurd h (by simp)
        · obtain ⟨a, ha⟩ := hdisp _ h
          exact Event.noConfusion ha

/-- Witness for C4 at a concrete input: idle callback 0 is queued and,
when drained, registers idle callback 1; callback 0 is invoked (it is in
the swapped batch), and the theorem places every invoked callback in that
batch — callback 1, absent from it, is not invoked this iteration. -/
theorem idle_invoked_only_from_swapped_batch_witness :
    (Event.idleInvoked 0
      ∈ (runIter (fun c => if c = 0 then [RegOp.addIdle 1] else [])
          ⟨[], [0]⟩ ⟨258, []⟩).evs)
    ∧ 0 ∈ (drainMsgs (⟨[], [0]⟩ : RunLoopState) (⟨258, []⟩ : IterScript).msgs).st.idle :=
  ⟨by decide,
    idle_invoked_only_from_swapped_batch
      (fun c => if c = 0 then [RegOp.addIdle 1] else []) ⟨[], [0]⟩ ⟨258, []⟩ 0
      (by decide)⟩

/-- C6: in every iteration, at most one listener callback is invoked, and
the listener branch and the idle-drain branch are mutually exclusive: the
trace of one iteration never contains both a listener invocation and an
idle invocation. -/
theorem at_most_one_dispatch_per_wake (env : Env) (s : RunLoopState)
    (it : IterScript) :
    (runIter env s it).evs.countP isListenerEv ≤ 1
    ∧ ((runIter env s it).evs.any isListenerEv
        && (runIter env s it).evs.any isIdleEv) = false := by
  obtain ⟨hc, ha1, ha2⟩ := drain_evs_no_invoke it.msgs s
  simp only [runIter]
  split
  · simp [List.countP_cons, hc, ha1, ha2, isListenerEv, isIdleEv]
  · split
    · split
      · split <;>
          simp [List.countP_cons, List.countP_append, List.any_append, hc, ha1, ha2,
            isListenerEv, isIdleEv]
      · simp [List.countP_cons, hc, ha1, ha2, isListenerEv, isIdleEv]
    · split
      · simp [List.countP_cons, List.countP_append, List.any_append, hc, ha1, ha2]
      · simp [List.countP_cons, hc, ha1, ha2]

/-- C7: every iteration starts by recording the composite wait call, whose
timeout argument is 0 exactly when the idle queue is nonempty at that
moment and `INFINITE` exactly when it is empty. -/
theorem wait_timeout_zero_iff_idle_pending (env : Env) (s : RunLoopState)
    (it : IterScript) :
    (runIter env s it).evs.head? = some (waitEv s)
    ∧ ((if s.idle.isEmpty then INFINITE else 0) = 0 ↔ s.idle ≠ [])
    ∧ ((if s.idle.isEmpty then INFINITE else 0) = INFINITE ↔ s.idle = []) := by
  refine ⟨?_, ?_, ?_⟩
  · simp only [runIter]
    split
    · simp [waitEv]
    · split
      · split
        · split <;> simp [waitEv]
        · simp [waitEv]
      · split <;> simp [waitEv]
  · cases s.idle <;> simp [INFINITE]
  · cases s.idle <;> simp [INFINITE]

/-- C8: when the wait result is a signaled-handle index `ix` below the
snapshot length and the drain does not observe a fatal read, the trace of
the iteration is: the wait call, the message dispatches, then exactly one
listener invocation — of the callback of the listener that was at index
`ix` in the snapshot — and nothing else: no other listener callback, no
idle callback. -/
theorem signaled_listener_invoked_exactly_once (env : Env) (s : RunLoopState)
    (it : IterScript)
    (hclean : ∀ m ∈ it.msgs, 0 < m.getRes)
    (hres : it.waitRes < s.listeners.length) :
    (runIter env s it).evs
      = waitEv s :: (it.msgs.map dispatchEv
          ++ [.listenerInvoked it.waitRes
              (s.listeners.get ⟨it.waitRes, hres⟩).callback]) :=
  (runIter_listener env s it hclean hres).1

/-- Witness for C8 at a concrete input: one listener on handle 9 with
callback 4; the handle is signaled; the trace is the wait call followed by
exactly that listener invocation. -/
theorem signaled_listener_invoked_exactly_once_witness :
    ((0 : Nat) < 1)
    ∧ (runIter (fun _ => []) ⟨[⟨9, 4⟩], []⟩ ⟨0, []⟩).evs
        = [.waitCall 1 [9] INFINITE, .listenerInvoked 0 4] :=
  ⟨by decide,
    (signaled_listener_invoked_exactly_once (fun _ => []) ⟨[⟨9, 4⟩], []⟩ ⟨0, []⟩
      (by decide) (by decide)).trans (by decide)⟩

/-- C9: `RunLoop::new` allocates a fresh shared state with an empty
listener list and an empty idle queue; `RunLoop::get_handle` leaves the
heap untouched and returns the very address the loop owns (so all handles
obtained from the loop alias one cell); and an `add_handler` performed
through a returned handle is visible at the cell the loop reads. -/
theorem new_empty_and_handles_share_state (hp : Heap) (h cb : Nat) :
    ((RunLoop.new hp).1.handle = hp.next)
    ∧ (RunLoop.get_handle (RunLoop.new hp).1 (RunLoop.new hp).2).2 = (RunLoop.new hp).2
    ∧ (RunLoop.get_handle (RunLoop.new hp).1 (RunLoop.new hp).2).1
        = (RunLoop.new hp).1.handle
    ∧ (RunLoop.new hp).2.mem (RunLoop.new hp).1.handle = some ⟨[], []⟩
    ∧ (add_handler_at (RunLoop.new hp).2
          (RunLoop.get_handle (RunLoop.new hp).1 (RunLoop.new hp).2).1 h cb).mem
        (RunLoop.new hp).1.handle
      = some ⟨[⟨h, cb⟩], []⟩ := by
  refine ⟨rfl, rfl, rfl, by simp [RunLoop.new], ?_⟩
  simp [RunLoop.new, RunLoop.get_handle, add_handler_at, Heap.write,
    RunLoopHandle.add_handler]

/-- C10: when the wait result is an index below the snapshot length, the
indexing of the listener list in the signaled-listener branch is in
bounds — even when window procedures dispatched during the message drain
of the same iteration registered further listeners — because the listener
list only ever grows by appending; the iteration cannot end in an
out-of-bounds panic. -/
theorem listener_index_in_bounds (env : Env) (s : RunLoopState)
    (it : IterScript)
    (hres : it.waitRes < s.listeners.length) :
    (runIter env s it).res ≠ .indexPanic
    ∧ ∃ t, (drainMsgs s it.msgs).st.listeners = s.listeners ++ t := by
  obtain ⟨t, ht⟩ := drain_st_listeners_grow it.msgs s
  have hix : (drainMsgs s it.msgs).st.listeners[it.waitRes]?
      = some (s.listeners.get ⟨it.waitRes, hres⟩) := by
    rw [ht, List.getElem?_append, if_pos hres, List.getElem?_eq_getElem hres]
    simp
  refine ⟨?_, t, ht⟩
  simp only [runIter]
  split
  · simp
  · rw [if_pos (by
      simp only [WAIT_OBJECT_0, List.length_map]
      omega)]
    simp only [WAIT_OBJECT_0, Nat.sub_zero, hix]
    cases execOps true (drainMsgs s it.msgs).st
        (env (s.listeners.get ⟨it.waitRes, hres⟩).callback) <;> simp

/-- Witness for C10 at a concrete input: one listener, index 0 signaled,
and a drained message that registers a second listener; the iteration does
not end in an out-of-bounds panic. -/
theorem listener_index_in_bounds_witness :
    ((0 : Nat) < 1)
    ∧ (runIter (fun _ => []) ⟨[⟨2, 6⟩], []⟩
        ⟨0, [⟨1, [RegOp.addHandler 8 9]⟩]⟩).res ≠ .indexPanic :=
  ⟨by decide,
    (listener_index_in_bounds (fun _ => []) ⟨[⟨2, 6⟩], []⟩
      ⟨0, [⟨1, [RegOp.addHandler 8 9]⟩]⟩ (by decide)).1⟩

end XiWin
